import Mathlib

/-!
Verification of the contact-form core of this repository: the Zod
validation schema, the `setValueAs` normalizers, the conditional
Website-field visibility driven by `watch("company")`, and the
submit lifecycle (src/unnamed/part_002 `Form`, src/src/component/form.tsx
`ProfessionalContactDemo`).  Field rules are translated from the
schemas in the source; the validate/activeFields/lifecycle plumbing
that lives in the third-party react-hook-form library is modelled
from the spec where noted.
-/

/-- The known field names of the form (keys of the Zod schema object in
src/unnamed/part_002, lines 7-26). -/
inductive FieldName where
  | firstName
  | lastName
  | company
  | website
  | email
  | message
deriving DecidableEq, Repr

/-- The candidate input: every known field name mapped to a string
(possibly empty), as entered into the six inputs of the `Form` component. -/
structure RawFormInput where
  firstName : String
  lastName : String
  company : String
  website : String
  email : String
  message : String
deriving DecidableEq, Repr

/-- The normalized record handed to `onSubmit`: `company` and `website`
are optional (absent when normalized away), the four required fields are
plain strings.  Mirrors `z.infer<typeof schema>` of part_002. -/
structure FormRecord where
  firstName : String
  lastName : String
  company : Option String
  website : Option String
  email : String
  message : String
deriving DecidableEq, Repr

/-- `v.trim() === ""` of the source, executably: a string trims to the
empty string exactly when every character is whitespace. -/
def trimsToEmpty (v : String) : Bool :=
  v.data.all Char.isWhitespace

/-- The `setValueAs` normalizer registered on `company` and `website`
(part_002 lines 125 and 144):
`(v) => (typeof v === "string" && v.trim() === "" ? undefined : v)` —
a whitespace-only string becomes absent, anything else is kept verbatim. -/
def setValueAsOpt (v : String) : Option String :=
  if trimsToEmpty v then none else some v

/-- `watch("company")` (part_002 line 51): react-hook-form stores the
`setValueAs`-transformed value on every change event, so the watched
company value is the normalized one. -/
def companyValue (c : RawFormInput) : Option String :=
  setValueAsOpt c.company

/-- ASCII letter test, as used by the syntactic email/URL checks below. -/
def isAsciiAlpha (ch : Char) : Bool :=
  (ch ≥ 'A' && ch ≤ 'Z') || (ch ≥ 'a' && ch ≤ 'z')

/-- ASCII digit test. -/
def isAsciiDigit (ch : Char) : Bool :=
  ch ≥ '0' && ch ≤ '9'

/-- Characters permitted in the local part of an email address. -/
def isEmailLocalChar (ch : Char) : Bool :=
  isAsciiAlpha ch || isAsciiDigit ch || ch = '_' || ch = '+' || ch = '-' || ch = '.'

/-- Characters permitted in a domain label: alphanumeric or hyphen. -/
def isDomainChar (ch : Char) : Bool :=
  isAsciiAlpha ch || isAsciiDigit ch || ch = '-'

/-- Split a character list on a separator character (kernel-reducible
analogue of splitting a string on a single-character separator). -/
def splitOnChar (sep : Char) : List Char → List (List Char)
  | [] => [[]]
  | ch :: rest =>
      match splitOnChar sep rest with
      | [] => [[]]
      | grp :: grps => if ch = sep then [] :: grp :: grps else (ch :: grp) :: grps

/-- A non-final domain label: non-empty, starts alphanumeric, then
alphanumerics or hyphens. -/
def validDomainLabel (l : List Char) : Bool :=
  match l with
  | [] => false
  | ch :: rest => (isAsciiAlpha ch || isAsciiDigit ch) && rest.all isDomainChar

/-- The final domain label (top-level domain): letters only, length at
least 2. -/
def validTld (l : List Char) : Bool :=
  2 ≤ l.length && l.all isAsciiAlpha

/-- Modelled from the spec: the "RFC-5322-ish syntactic check" performed
by `z.email(...)` (part_002 line 22) — the zod library implementing it is
not under src/.  A single `@` separating a non-empty local part of
permitted characters from a dot-separated domain whose labels are
alphanumeric-led and whose top-level label is alphabetic of length ≥ 2. -/
def isValidEmail (s : String) : Bool :=
  match splitOnChar '@' s.data with
  | [localPart, domain] =>
      localPart ≠ [] && localPart.all isEmailLocalChar &&
      (match (splitOnChar '.' domain).reverse with
       | tld :: labels => validTld tld && labels ≠ [] && labels.all validDomainLabel
       | [] => false)
  | _ => false

/-- Split a character list at the first occurrence of the literal `://`,
when there is one. -/
def splitAtSchemeSep : List Char → Option (List Char × List Char)
  | ':' :: '/' :: '/' :: rest => some ([], rest)
  | [] => none
  | ch :: rest =>
      match splitAtSchemeSep rest with
      | none => none
      | some (pre, post) => some (ch :: pre, post)

/-- Characters permitted in a URL scheme after its leading letter. -/
def isSchemeChar (ch : Char) : Bool :=
  isAsciiAlpha ch || isAsciiDigit ch || ch = '+' || ch = '-' || ch = '.'

/-- Modelled from the spec: the "absolute-URL syntactic check" performed
by `z.url()` (part_002 line 19) — the zod library implementing it is not
under src/.  An alphabetic-led scheme, the literal `://`, and a non-empty
remainder with no whitespace. -/
def isValidURL (s : String) : Bool :=
  match splitAtSchemeSep s.data with
  | some (scheme, rest) =>
      (match scheme with
       | [] => false
       | ch :: tail => isAsciiAlpha ch && tail.all isSchemeChar) &&
      rest ≠ [] && rest.all (fun d => !d.isWhitespace)
  | none => false

/-- The per-field rule of the Zod schema (part_002 lines 7-26), evaluated
on the candidate after the `setValueAs` normalization of the optional
fields: `none` when the rule passes, `some message` when it fails.
Messages are the ones written in the schema; `website` uses zod's default
URL message, the one the test suite expects. -/
def fieldError (c : RawFormInput) : FieldName → Option String
  | .firstName =>
      if c.firstName.length < 2 then some "First name must be at least 2 characters." else none
  | .lastName =>
      if c.lastName.length < 2 then some "Last name must be at least 2 characters." else none
  | .company => none
  | .website =>
      match setValueAsOpt c.website with
      | none => none
      | some w => if isValidURL w then none else some "Invalid URL"
  | .email =>
      if isValidEmail c.email then none else some "Please enter a valid email address."
  | .message =>
      if c.message.length < 10 then some "Message must be at least 10 characters." else none

/-- Modelled from the spec: the Field Visibility Policy,
`activeFields(candidate) -> set of FieldName`.  The always-rendered
fields in their DOM order, with `website` included exactly when the
watched company value is truthy — the conditional render
`{companyValue && (...)}` of part_002 lines 136-158 (a JS string is
truthy iff non-empty, and `setValueAsOpt` never yields an empty string,
so truthiness of the watched value is `isSome`). -/
def activeFields (c : RawFormInput) : List FieldName :=
  [.firstName, .lastName, .company] ++
    (if (companyValue c).isSome then [.website] else []) ++
    [.email, .message]

/-- All rule failures among the active fields, collected together in
field order (not fail-fast): one `(field, message)` entry per active
field whose rule fails. -/
def validationErrors (c : RawFormInput) (active : List FieldName) : List (FieldName × String) :=
  active.filterMap (fun f => (fieldError c f).map (fun m => (f, m)))

/-- The normalized record built from a candidate: required fields kept
verbatim, `company` normalized by its `setValueAs`, `website` normalized
when active and discarded entirely when inactive. -/
def buildRecord (c : RawFormInput) (active : List FieldName) : FormRecord :=
  ⟨c.firstName, c.lastName, setValueAsOpt c.company,
   if FieldName.website ∈ active then setValueAsOpt c.website else none,
   c.email, c.message⟩

/-- A validation outcome: either the normalized valid record, or the
mapping of failing field names to messages. -/
inductive ValidationResult where
  | Valid (record : FormRecord)
  | Invalid (errors : List (FieldName × String))
deriving DecidableEq, Repr

/-- Modelled from the spec: the Validator contract
`validate(candidate, activeFields) -> ValidationResult` (the resolver
machinery of react-hook-form is not under src/; the rules it applies are
the ones of the source schema, restricted to the active fields). -/
def validate (c : RawFormInput) (active : List FieldName) : ValidationResult :=
  let es := validationErrors c active
  if es.isEmpty then .Valid (buildRecord c active) else .Invalid es

/-- The submission lifecycle status exposed through `isSubmitting` and
the success/failure outcome of the injected submit action. -/
inductive SubmissionState where
  | Idle
  | Submitting
  | Succeeded
  | Failed (reason : String)
deriving DecidableEq, Repr

/-- Events driving the lifecycle: a submit trigger carrying the current
candidate, and the resolution or rejection of the in-flight submit
action. -/
inductive Event where
  | trigger (c : RawFormInput)
  | resolve
  | reject (reason : String)
deriving DecidableEq, Repr

/-- The observable effects of a lifecycle step: invoking the injected
submit action with the normalized record, surfacing the field-error
mapping of a rejected attempt, raising the success signal, or surfacing
the failure reason of a rejected submit action. -/
inductive Effect where
  | invoke (record : FormRecord)
  | surfaceErrors (errors : List (FieldName × String))
  | signalSuccess
  | surfaceFailure (reason : String)
deriving DecidableEq, Repr

/-- Modelled from the spec: the Submission Lifecycle Controller (in the
source this is react-hook-form `handleSubmit`/`isSubmitting` plus the
`disabled={isSubmitting}` button of part_002 lines 197-206; the library
is not under src/).  A trigger while `Submitting` is ignored; from any
resubmittable state a trigger validates over the active fields and, if
valid, invokes the submit action exactly once; resolution and rejection
are only meaningful while `Submitting`. -/
def submitStep : SubmissionState → Event → SubmissionState × List Effect
  | .Submitting, .trigger _ => (.Submitting, [])
  | .Submitting, .resolve => (.Succeeded, [.signalSuccess])
  | .Submitting, .reject reason => (.Failed reason, [.surfaceFailure reason])
  | s, .trigger c =>
      match validate c (activeFields c) with
      | .Valid r => (.Submitting, [.invoke r])
      | .Invalid es => (s, [.surfaceErrors es])
  | s, _ => (s, [])

/-- The record type of the second form component
(src/src/component/form.tsx): only the four required fields,
`z.infer` of the schema at lines 9-14. -/
structure DemoInputs where
  firstName : String
  lastName : String
  email : String
  message : String
deriving DecidableEq, Repr

/-- The schema of src/src/component/form.tsx (lines 9-14) as an
acceptance predicate: firstName/lastName at least 2 characters, email
syntactically valid, message at least 10 characters.  Its
`z.string().email(...)` performs the same syntactic check as the
`z.email(...)` of part_002, so both are embedded by `isValidEmail`. -/
def demoSchemaAccepts (r : DemoInputs) : Bool :=
  decide (2 ≤ r.firstName.length) && decide (2 ≤ r.lastName.length) &&
    isValidEmail r.email && decide (10 ≤ r.message.length)

/-- A `DemoInputs` record viewed as a candidate for the part_002 form:
the fields it does not supply (`company`, `website`) are absent, i.e.
empty strings that normalize away. -/
def embedDemo (r : DemoInputs) : RawFormInput :=
  ⟨r.firstName, r.lastName, "", "", r.email, r.message⟩

/-- Whether the part_002 schema accepts a record supplying only the four
required fields. -/
def mainSchemaAccepts (r : DemoInputs) : Bool :=
  match validate (embedDemo r) (activeFields (embedDemo r)) with
  | .Valid _ => true
  | .Invalid _ => false

/-- A `(field, message)` pair is among the collected validation errors
exactly when the field is active and its rule fails with that message. -/
theorem mem_validationErrors (c : RawFormInput) (active : List FieldName)
    (f : FieldName) (m : String) :
    (f, m) ∈ validationErrors c active ↔ f ∈ active ∧ fieldError c f = some m := by
  unfold validationErrors
  rw [List.mem_filterMap]
  constructor
  · rintro ⟨a, ha, hg⟩
    cases hfa : fieldError c a with
    | none => rw [hfa] at hg; simp at hg
    | some m0 =>
        rw [hfa] at hg
        simp only [Option.map_some', Option.some.injEq, Prod.mk.injEq] at hg
        obtain ⟨rfl, rfl⟩ := hg
        exact ⟨ha, hfa⟩
  · rintro ⟨hf, he⟩
    exact ⟨f, hf, by rw [he]; rfl⟩

/-- `website` is an active field exactly when the company value does not
trim to the empty string. -/
theorem website_mem_activeFields (c : RawFormInput) :
    FieldName.website ∈ activeFields c ↔ trimsToEmpty c.company = false := by
  unfold activeFields companyValue setValueAsOpt
  by_cases h : trimsToEmpty c.company <;> simp [h]

/-- A `Valid` outcome always carries the record built by `buildRecord`. -/
theorem validate_valid_record (c : RawFormInput) (active : List FieldName)
    (r : FormRecord) (h : validate c active = .Valid r) : r = buildRecord c active := by
  unfold validate at h
  by_cases he : (validationErrors c active).isEmpty
  · rw [if_pos he] at h
    exact (ValidationResult.Valid.injEq _ _).mp h.symm
  · rw [if_neg he] at h
    exact absurd h (by simp)

/-- The field names carrying an error are exactly the active fields whose
rule fails, in order. -/
theorem validationErrors_keys (c : RawFormInput) (active : List FieldName) :
    (validationErrors c active).map Prod.fst =
      active.filter (fun f => (fieldError c f).isSome) := by
  induction active with
  | nil => rfl
  | cons f rest ih =>
      cases h : fieldError c f with
      | none =>
          simp only [validationErrors, List.filterMap_cons, h, Option.map_none',
            List.filter_cons] at ih ⊢
          simpa [h] using ih
      | some m =>
          simp only [validationErrors, List.filterMap_cons, h, Option.map_some',
            List.filter_cons] at ih ⊢
          simpa [h] using ih

/-- The active-field list never repeats a field. -/
theorem activeFields_nodup (c : RawFormInput) : (activeFields c).Nodup := by
  unfold activeFields
  by_cases h : (companyValue c).isSome <;> simp [h]

/-- C1: for every candidate input, the set of active fields includes
`website` if and only if the candidate's `company` value, after trimming
whitespace, is non-empty; in particular a whitespace-only `company`
leaves `website` inactive. -/
theorem website_active_iff_company_nonempty (c : RawFormInput) :
    FieldName.website ∈ activeFields c ↔ trimsToEmpty c.company = false := by
  exact website_mem_activeFields c

/-- C2: for every candidate whose `company` is empty or whitespace-only,
`website` is inactive, no `website` error is produced even when a
malformed `website` value is present, and a `Valid` outcome's record
carries no `website` value — the held value is discarded. -/
theorem empty_company_discards_website (c : RawFormInput)
    (h : trimsToEmpty c.company = true) :
    FieldName.website ∉ activeFields c ∧
      (∀ m, (FieldName.website, m) ∉ validationErrors c (activeFields c)) ∧
      (∀ r, validate c (activeFields c) = .Valid r → r.website = none) := by
  have hniff := (website_mem_activeFields c).not
  have hn : FieldName.website ∉ activeFields c := by
    rw [hniff]; simp [h]
  refine ⟨hn, ?_, ?_⟩
  · intro m hm
    exact hn ((mem_validationErrors c (activeFields c) _ m).mp hm).1
  · intro r hr
    have := validate_valid_record c (activeFields c) r hr
    rw [this]
    simp [buildRecord, hn]

/-- C2 witness: a concrete whitespace-only company with a malformed
website value: website is inactive and yields no error entry. -/
theorem empty_company_discards_website_witness :
    trimsToEmpty ("   " : String) = true ∧
      FieldName.website ∉
        activeFields ⟨"Jane", "Smith", "   ", "not-a-url", "jane@example.com", "hello world message"⟩ ∧
      (FieldName.website, "Invalid URL") ∉
        validationErrors ⟨"Jane", "Smith", "   ", "not-a-url", "jane@example.com", "hello world message"⟩
          (activeFields ⟨"Jane", "Smith", "   ", "not-a-url", "jane@example.com", "hello world message"⟩) := by
  refine ⟨by decide, ?_, ?_⟩
  · exact (empty_company_discards_website _ (by decide)).1
  · exact (empty_company_discards_website _ (by decide)).2.1 "Invalid URL"

/-- C3: `validate` is not fail-fast: an error entry appears for a field
exactly when the field is active and its own rule fails, and submitting
the all-empty candidate yields errors for exactly `firstName`,
`lastName`, `email` and `message`, with no `website` entry. -/
theorem validate_collects_all_failures :
    (∀ (c : RawFormInput) (f : FieldName) (m : String),
        (f, m) ∈ validationErrors c (activeFields c) ↔
          f ∈ activeFields c ∧ fieldError c f = some m) ∧
      validate ⟨"", "", "", "", "", ""⟩ (activeFields ⟨"", "", "", "", "", ""⟩) =
        .Invalid [(.firstName, "First name must be at least 2 characters."),
                  (.lastName, "Last name must be at least 2 characters."),
                  (.email, "Please enter a valid email address."),
                  (.message, "Message must be at least 10 characters.")] :=
  ⟨fun c f m => mem_validationErrors c (activeFields c) f m, by decide⟩

/-- C4: in any valid submission a whitespace-only `company` is handed to
the submit action as absent, while an empty required field is never
normalized away: it fails its length rule with an error entry. -/
theorem optional_normalized_required_not :
    (∀ (c : RawFormInput) (r : FormRecord),
        validate c (activeFields c) = .Valid r →
          trimsToEmpty c.company = true → r.company = none) ∧
      (∀ c : RawFormInput, c.firstName = "" →
        (FieldName.firstName, "First name must be at least 2 characters.") ∈
          validationErrors c (activeFields c)) ∧
      (∀ c : RawFormInput, c.message = "" →
        (FieldName.message, "Message must be at least 10 characters.") ∈
          validationErrors c (activeFields c)) := by
  refine ⟨?_, ?_, ?_⟩
  · intro c r hr h
    have := validate_valid_record c (activeFields c) r hr
    rw [this]
    simp [buildRecord, setValueAsOpt, h]
  · intro c h
    rw [mem_validationErrors]
    refine ⟨by unfold activeFields; simp, ?_⟩
    simp [fieldError, h]
  · intro c h
    rw [mem_validationErrors]
    refine ⟨by unfold activeFields; simp, ?_⟩
    simp [fieldError, h]

/-- C4 witness: a concrete valid submission with `company = "   "` whose
normalized record omits `company`, and a concrete empty `firstName` that
fails its length rule. -/
theorem optional_normalized_required_not_witness :
    validate ⟨"Jane", "Smith", "   ", "", "jane@example.com", "hello world message"⟩
        (activeFields ⟨"Jane", "Smith", "   ", "", "jane@example.com", "hello world message"⟩) =
      .Valid ⟨"Jane", "Smith", none, none, "jane@example.com", "hello world message"⟩ ∧
      trimsToEmpty ("   " : String) = true ∧
      (⟨"Jane", "Smith", none, none, "jane@example.com", "hello world message"⟩ : FormRecord).company = none ∧
      (FieldName.firstName, "First name must be at least 2 characters.") ∈
        validationErrors ⟨"", "Smith", "", "", "jane@example.com", "hello world message"⟩
          (activeFields ⟨"", "Smith", "", "", "jane@example.com", "hello world message"⟩) := by
  refine ⟨by decide, by decide, ?_, ?_⟩
  · exact optional_normalized_required_not.1
      ⟨"Jane", "Smith", "   ", "", "jane@example.com", "hello world message"⟩
      ⟨"Jane", "Smith", none, none, "jane@example.com", "hello world message"⟩
      (by decide) (by decide)
  · exact optional_normalized_required_not.2.1
      ⟨"", "Smith", "", "", "jane@example.com", "hello world message"⟩ (by decide)

/-- C5: the Scenario B candidate yields `Invalid` with exactly one error,
keyed `website`; and for every candidate a field name occurs at most once
among the error entries — zero or exactly one message per field. -/
theorem scenarioB_single_website_error :
    validate ⟨"John", "Doe", "Acme", "not-a-url", "j@x.com", "0123456789"⟩
        (activeFields ⟨"John", "Doe", "Acme", "not-a-url", "j@x.com", "0123456789"⟩) =
      .Invalid [(.website, "Invalid URL")] ∧
      ∀ (c : RawFormInput) (f : FieldName),
        List.count f ((validationErrors c (activeFields c)).map Prod.fst) ≤ 1 := by
  refine ⟨by decide, ?_⟩
  intro c f
  rw [validationErrors_keys]
  exact List.nodup_iff_count_le_one.mp
    (List.Nodup.filter _ (activeFields_nodup c)) f

/-- C6: triggering submit while the state is `Submitting` leaves the
state unchanged and produces no effect at all — in particular the submit
action is not invoked a second time. -/
theorem trigger_while_submitting_noop (c : RawFormInput) :
    submitStep SubmissionState.Submitting (Event.trigger c) =
      (SubmissionState.Submitting, []) := rfl

/-- C7: when the submit action rejects, the controller moves from
`Submitting` to `Failed(reason)`, surfacing the reason verbatim and
invoking nothing (no automatic retry); and `Failed` is resubmittable: a
trigger with a valid candidate starts a fresh submission. -/
theorem reject_fails_then_resubmittable (reason : String) :
    submitStep SubmissionState.Submitting (Event.reject reason) =
      (SubmissionState.Failed reason, [Effect.surfaceFailure reason]) ∧
      ∀ (c : RawFormInput) (r : FormRecord),
        validate c (activeFields c) = .Valid r →
          submitStep (SubmissionState.Failed reason) (Event.trigger c) =
            (SubmissionState.Submitting, [Effect.invoke r]) := by
  refine ⟨rfl, ?_⟩
  intro c r h
  have hstep : submitStep (SubmissionState.Failed reason) (Event.trigger c) =
      (match validate c (activeFields c) with
       | .Valid r => (SubmissionState.Submitting, [Effect.invoke r])
       | .Invalid es => (SubmissionState.Failed reason, [Effect.surfaceErrors es])) := rfl
  rw [hstep, h]

/-- C7 witness: a concrete rejection reason and a concrete valid
candidate resubmitted from the `Failed` state. -/
theorem reject_fails_then_resubmittable_witness :
    validate ⟨"Jane", "Smith", "", "", "jane@example.com", "hello world message"⟩
        (activeFields ⟨"Jane", "Smith", "", "", "jane@example.com", "hello world message"⟩) =
      .Valid ⟨"Jane", "Smith", none, none, "jane@example.com", "hello world message"⟩ ∧
      submitStep (SubmissionState.Failed "network down")
          (Event.trigger ⟨"Jane", "Smith", "", "", "jane@example.com", "hello world message"⟩) =
        (SubmissionState.Submitting,
         [Effect.invoke ⟨"Jane", "Smith", none, none, "jane@example.com", "hello world message"⟩]) :=
  ⟨by decide,
   (reject_fails_then_resubmittable "network down").2
     ⟨"Jane", "Smith", "", "", "jane@example.com", "hello world message"⟩
     ⟨"Jane", "Smith", none, none, "jane@example.com", "hello world message"⟩
     (by decide)⟩

/-- C8: `validate` is a pure function of its `(candidate, activeFields)`
pair: two calls on the same pair always produce the same
`ValidationResult`. -/
theorem validate_deterministic (c : RawFormInput) (active : List FieldName)
    (r₁ r₂ : ValidationResult)
    (h₁ : validate c active = r₁) (h₂ : validate c active = r₂) : r₁ = r₂ := by
  rw [← h₁, ← h₂]

/-- C8 witness: two evaluations of `validate` on a concrete pair agree. -/
theorem validate_deterministic_witness :
    validate ⟨"Ann", "Lee", "", "", "ann@site.org", "a fine long message"⟩
        (activeFields ⟨"Ann", "Lee", "", "", "ann@site.org", "a fine long message"⟩) =
      .Valid ⟨"Ann", "Lee", none, none, "ann@site.org", "a fine long message"⟩ ∧
      (ValidationResult.Valid ⟨"Ann", "Lee", none, none, "ann@site.org", "a fine long message"⟩ =
        ValidationResult.Valid ⟨"Ann", "Lee", none, none, "ann@site.org", "a fine long message"⟩) :=
  ⟨by decide,
   validate_deterministic ⟨"Ann", "Lee", "", "", "ann@site.org", "a fine long message"⟩
     (activeFields ⟨"Ann", "Lee", "", "", "ann@site.org", "a fine long message"⟩)
     (.Valid ⟨"Ann", "Lee", none, none, "ann@site.org", "a fine long message"⟩)
     (.Valid ⟨"Ann", "Lee", none, none, "ann@site.org", "a fine long message"⟩)
     (by decide) (by decide)⟩

/-- C9: the name rules check the raw, untrimmed length: any `firstName`
or `lastName` of length at least 2 — whitespace-only included — passes
its rule and produces no error entry. -/
theorem name_rules_use_untrimmed_length (c : RawFormInput) :
    (2 ≤ c.firstName.length →
      ∀ m, (FieldName.firstName, m) ∉ validationErrors c (activeFields c)) ∧
      (2 ≤ c.lastName.length →
        ∀ m, (FieldName.lastName, m) ∉ validationErrors c (activeFields c)) := by
  constructor
  · intro h m hm
    have he := ((mem_validationErrors c (activeFields c) FieldName.firstName m).mp hm).2
    rw [show fieldError c FieldName.firstName =
        (if c.firstName.length < 2 then some "First name must be at least 2 characters." else none)
      from rfl, if_neg (Nat.not_lt.mpr h)] at he
    exact Option.noConfusion he
  · intro h m hm
    have he := ((mem_validationErrors c (activeFields c) FieldName.lastName m).mp hm).2
    rw [show fieldError c FieldName.lastName =
        (if c.lastName.length < 2 then some "Last name must be at least 2 characters." else none)
      from rfl, if_neg (Nat.not_lt.mpr h)] at he
    exact Option.noConfusion he

/-- C9 witness: a candidate whose names are two spaces each — length 2,
entirely whitespace — produces no name error entries. -/
theorem name_rules_use_untrimmed_length_witness :
    2 ≤ ("  " : String).length ∧
      (FieldName.firstName, "First name must be at least 2 characters.") ∉
        validationErrors ⟨"  ", "  ", "", "", "", ""⟩ (activeFields ⟨"  ", "  ", "", "", "", ""⟩) :=
  ⟨by decide,
   (name_rules_use_untrimmed_length ⟨"  ", "  ", "", "", "", ""⟩).1 (by decide)
     "First name must be at least 2 characters."⟩

/-- When no field rule fails, the collected errors are empty, and
conversely: emptiness of the error list is the conjunction of every
active field's rule passing. -/
theorem validationErrors_isEmpty (c : RawFormInput) (active : List FieldName) :
    (validationErrors c active).isEmpty =
      active.all (fun f => (fieldError c f).isNone) := by
  induction active with
  | nil => rfl
  | cons f rest ih =>
      cases h : fieldError c f with
      | none =>
          simp only [validationErrors, List.filterMap_cons, h, Option.map_none',
            List.all_cons, Option.isNone_none, Bool.true_and] at ih ⊢
          exact ih
      | some m =>
          simp only [validationErrors, List.filterMap_cons, h, Option.map_some',
            List.all_cons, Option.isNone_some, Bool.false_and]
          rfl

/-- C10: the schema of src/src/component/form.tsx and the schema of
src/unnamed/part_002 agree on every record supplying only the four
required fields: one accepts exactly when the other does. -/
theorem demo_and_main_schemas_agree (r : DemoInputs) :
    demoSchemaAccepts r = true ↔ mainSchemaAccepts r = true := by
  have hA : activeFields (embedDemo r) =
      [FieldName.firstName, FieldName.lastName, FieldName.company,
       FieldName.email, FieldName.message] := rfl
  have hm : mainSchemaAccepts r =
      (validationErrors (embedDemo r) (activeFields (embedDemo r))).isEmpty := by
    unfold mainSchemaAccepts validate
    by_cases h : (validationErrors (embedDemo r) (activeFields (embedDemo r))).isEmpty <;>
      simp [h]
  have e1 : fieldError (embedDemo r) FieldName.firstName = none ↔ 2 ≤ r.firstName.length := by
    show (if r.firstName.length < 2 then some "First name must be at least 2 characters."
      else none) = none ↔ _
    by_cases h : r.firstName.length < 2
    · rw [if_pos h]; exact iff_of_false (by simp) (by omega)
    · rw [if_neg h]; exact iff_of_true rfl (by omega)
  have e2 : fieldError (embedDemo r) FieldName.lastName = none ↔ 2 ≤ r.lastName.length := by
    show (if r.lastName.length < 2 then some "Last name must be at least 2 characters."
      else none) = none ↔ _
    by_cases h : r.lastName.length < 2
    · rw [if_pos h]; exact iff_of_false (by simp) (by omega)
    · rw [if_neg h]; exact iff_of_true rfl (by omega)
  have e3 : fieldError (embedDemo r) FieldName.email = none ↔ isValidEmail r.email = true := by
    show (if isValidEmail r.email then none
      else some "Please enter a valid email address.") = none ↔ _
    by_cases h : isValidEmail r.email
    · rw [if_pos h]; exact iff_of_true rfl h
    · rw [if_neg h]; exact iff_of_false (by simp) (by simpa using h)
  have e4 : fieldError (embedDemo r) FieldName.message = none ↔ 10 ≤ r.message.length := by
    show (if r.message.length < 10 then some "Message must be at least 10 characters."
      else none) = none ↔ _
    by_cases h : r.message.length < 10
    · rw [if_pos h]; exact iff_of_false (by simp) (by omega)
    · rw [if_neg h]; exact iff_of_true rfl (by omega)
  have ec : fieldError (embedDemo r) FieldName.company = none := rfl
  rw [hm, validationErrors_isEmpty, hA]
  simp only [demoSchemaAccepts, Bool.and_eq_true, decide_eq_true_eq, List.all_cons,
    List.all_nil, Option.isNone_iff_eq_none, e1, e2, e3, e4, ec, Bool.and_true]
  tauto
